import Mathlib

/-!
Verification of the OpenInsight query-processing pipeline.

The JavaScript sources (utils/QueryProcessor.js, utils/OpenRouterClient.js,
utils/DbConnector.js, components/QueryInterface.js) are shallowly embedded
below. Strings are modelled as Lean `String` and, where character-level
processing matters, as their underlying `List Char`. JavaScript regular
expressions are modelled character by character: the class \s is modelled by
`Char.isWhitespace`, the class \w by ASCII letters, digits and underscore,
matching the non-unicode JavaScript semantics on the ASCII inputs the
pipeline handles. JavaScript truthiness of a possibly-null string is
modelled by `truthy`.
-/

namespace OpenInsight

/-- Model of the regex class \s used by replace and of the characters
removed by String.prototype.trim. -/
def isWS (c : Char) : Bool := c.isWhitespace

/-- Model of the regex word class \w = [A-Za-z0-9_]. -/
def isWordChar (c : Char) : Bool := c.isAlpha || c.isDigit || c == '_'

/-- Model of JavaScript String.prototype.trim on a character list: drop
whitespace from the front, then from the back. -/
def trimChars (l : List Char) : List Char :=
  List.rdropWhile isWS (List.dropWhile isWS l)

/-- Model of JavaScript String.prototype.split with separator ";". Every
occurrence of the separator splits, and empty parts are kept, exactly as in
JavaScript. -/
def splitSemi : List Char → List (List Char)
  | [] => [[]]
  | c :: cs =>
    let r := splitSemi cs
    if c == ';' then [] :: r
    else
      match r with
      | [] => [[c]]
      | p :: ps => (c :: p) :: ps

/-- Worker for `collapseWS`: the flag records whether the previous character
was whitespace, so that a maximal whitespace run emits a single space. -/
def collapseWSAux : Bool → List Char → List Char
  | _, [] => []
  | prevWS, c :: cs =>
    if isWS c then
      if prevWS then collapseWSAux true cs
      else ' ' :: collapseWSAux true cs
    else c :: collapseWSAux false cs

/-- Model of .replace with a global whitespace-run pattern and a single
space as replacement: every maximal run of whitespace becomes one space. -/
def collapseWS (l : List Char) : List Char := collapseWSAux false l

/-- Case-insensitive match of an upper-case keyword against the head of the
input, modelling canonicalisation by upper-casing in a case-insensitive
JavaScript regex. -/
def ciMatch : List Char → List Char → Bool
  | [], _ => true
  | _ :: _, [] => false
  | k :: ks, c :: cs => (c.toUpper == k) && ciMatch ks cs

/-- After a keyword match of length n starting here, the regex boundary
requires the next character (if any) to be a non-word character. -/
def noWordCharAfter (n : Nat) (l : List Char) : Bool :=
  match l.drop n with
  | [] => true
  | c :: _ => !isWordChar c

/-- The keyword matches at the current position with a word boundary on its
right (its left boundary is checked by the scanner). -/
def matchHere (kw : List Char) (l : List Char) : Bool :=
  ciMatch kw l && noWordCharAfter kw.length l

/-- The character before the current position permits a word boundary:
either there is none (start of string) or it is not a word character. -/
def prevOk : Option Char → Bool
  | none => true
  | some p => !isWordChar p

/-- Scanner for a whole-word case-insensitive regex match anywhere in the
input, threading the previous character for the left boundary check. -/
def scanWholeWord (kw : List Char) : Option Char → List Char → Bool
  | _, [] => false
  | prev, c :: cs =>
    (prevOk prev && matchHere kw (c :: cs)) || scanWholeWord kw (some c) cs

/-- Model of the test of a whole-word case-insensitive regex built from an
upper-case keyword against the raw SQL string. -/
def hasWholeWordCI (kw : List Char) (l : List Char) : Bool :=
  scanWholeWord kw none l

/-- The forbidden-keyword list from isReadOnlyQuery, in source order. -/
def dangerousKeywords : List String :=
  ["INSERT", "UPDATE", "DELETE", "DROP", "ALTER", "CREATE", "TRUNCATE",
   "REPLACE", "GRANT", "REVOKE", "EXEC", "EXECUTE", "CALL", "PRAGMA",
   "ATTACH", "DETACH", "VACUUM"]

/-- The executable normalisation used by isReadOnlyQuery: upper-case,
collapse each whitespace run to one space, trim both ends. -/
def normalizeSql (l : List Char) : List Char :=
  trimChars (collapseWS (l.map Char.toUpper))

/-- Embedding of isReadOnlyQuery from QueryProcessor.js: reject when the
string splits on ";" into more than one non-blank part, reject when any
forbidden keyword occurs as a whole word case-insensitively, and otherwise
accept exactly when the normalised string starts with SELECT or WITH. -/
def isReadOnlyQuery (sql : String) : Bool :=
  let s := sql.data
  let normalized := normalizeSql s
  if s.contains ';' &&
      decide (((splitSemi s).filter (fun p => !(trimChars p).isEmpty)).length > 1) then
    false
  else if dangerousKeywords.any (fun kw => hasWholeWordCI kw.data s) then
    false
  else
    List.isPrefixOf "SELECT".data normalized ||
      List.isPrefixOf "WITH".data normalized

/-- Character-list core of cleanSqlResponse from QueryProcessor.js: trim,
strip a leading code fence (with or without the sql tag), strip a trailing
code fence, trim again. -/
def cleanSqlData (l : List Char) : List Char :=
  let c0 := trimChars l
  let c1 :=
    if List.isPrefixOf "```sql".data c0 then c0.drop 6
    else if List.isPrefixOf "```".data c0 then c0.drop 3
    else c0
  let c2 := if List.isSuffixOf "```".data c1 then c1.dropLast.dropLast.dropLast else c1
  trimChars c2

/-- Embedding of cleanSqlResponse from QueryProcessor.js. -/
def cleanSqlResponse (sql : String) : String :=
  ⟨cleanSqlData sql.data⟩

/-- JavaScript truthiness of a string-or-null value: null and the empty
string are falsy, every other string is truthy. -/
def truthy : Option String → Bool
  | none => false
  | some s => !s.isEmpty

/-- Result shape of generateSQL and fixSQL in OpenRouterClient.js: each
returns an object with sql and error fields, one of them null. -/
structure GenResult where
  sql : Option String
  error : Option String
deriving DecidableEq

/-- Embedding of generateQuery from QueryProcessor.js. The outcome of the
network call aiClient.generateSQL is supplied as `aiResult`; the function
guards the missing key, propagates generation errors, cleans the generated
SQL and applies the read-only validator. -/
def generateQuery (openRouterKey : Option String) (aiResult : GenResult) : GenResult :=
  if !(truthy openRouterKey) then
    ⟨none, some "OPENROUTER_KEY environment variable is required"⟩
  else if truthy aiResult.error then
    ⟨none, aiResult.error⟩
  else
    let sql := cleanSqlResponse (aiResult.sql.getD "")
    if !(isReadOnlyQuery sql) then ⟨some sql, some "Only SELECT queries are allowed"⟩
    else ⟨some sql, none⟩

/-- Environment of one executeQuery run: the outcome of createConnection at
each attempt, the outcome of conn.query for a given attempt and SQL text,
and the outcome of aiClient.fixSQL for a given attempt, failed SQL and
error message. Rows have an abstract element type. -/
structure Env (α : Type) where
  connect : Nat → Except String Unit
  run : Nat → String → Except String (List α)
  fix : Nat → String → String → GenResult

/-- Observable side effects of one executeQuery run, in order. -/
inductive Event where
  | fix (attempt : Nat) (sql lastErr : String)
  | connOpen (attempt : Nat)
  | connFail (attempt : Nat) (msg : String)
  | exec (attempt : Nat) (sql : String)
  | connClose (attempt : Nat)
deriving DecidableEq

/-- Return shape of executeQuery in QueryProcessor.js. -/
structure ExecResult (α : Type) where
  error : Option String
  sql : String
  data : Option (List α)
deriving DecidableEq

/-- Result of a run together with its event trace. -/
structure RunOut (α : Type) where
  result : ExecResult α
  events : List Event

/-- Embedding of the retry loop of executeQuery from QueryProcessor.js.
The fuel equals the number of loop iterations still allowed, so the fuel-0
case is the `return` after the loop; `attempt` is the loop counter. On a
later attempt the failed SQL is first repaired (terminal on a truthy repair
error and on a repaired SQL rejected by the validator), then a fresh
connection is opened (terminal on failure), the SQL is executed, and an
execution error either aborts with the aggregate message on the last
attempt or recurses into the next attempt. The getD fallback models
cleanSqlResponse applied to a null sql, which fixSQL never returns
alongside a null error. -/
def executeQueryAux {α : Type} (env : Env α) (maxRetries : Nat) :
    Nat → Nat → String → String → RunOut α
  | 0, _, currentSql, _ =>
    ⟨⟨some "Unexpected error", currentSql, none⟩, []⟩
  | fuel + 1, attempt, currentSql, lastError =>
    let repaired : RunOut α ⊕ (String × List Event) :=
      if attempt > 1 then
        let r := env.fix attempt currentSql lastError
        if truthy r.error then
          Sum.inl ⟨⟨r.error, currentSql, none⟩, [Event.fix attempt currentSql lastError]⟩
        else
          let sql2 := cleanSqlResponse (r.sql.getD "")
          if !(isReadOnlyQuery sql2) then
            Sum.inl ⟨⟨some "Only SELECT queries are allowed", sql2, none⟩,
              [Event.fix attempt currentSql lastError]⟩
          else
            Sum.inr (sql2, [Event.fix attempt currentSql lastError])
      else
        Sum.inr (currentSql, [])
    match repaired with
    | Sum.inl out => out
    | Sum.inr (sql2, evs0) =>
      match env.connect attempt with
      | Except.error m =>
        ⟨⟨some ("Failed to connect: " ++ m), sql2, none⟩,
          evs0 ++ [Event.connFail attempt m]⟩
      | Except.ok _ =>
        match env.run attempt sql2 with
        | Except.ok rows =>
          ⟨⟨none, sql2, some rows⟩,
            evs0 ++ [Event.connOpen attempt, Event.exec attempt sql2, Event.connClose attempt]⟩
        | Except.error m =>
          if attempt = maxRetries then
            ⟨⟨some ("Query failed after " ++ toString maxRetries ++ " attempts: " ++ m),
                sql2, none⟩,
              evs0 ++ [Event.connOpen attempt, Event.exec attempt sql2, Event.connClose attempt]⟩
          else
            let nxt := executeQueryAux env maxRetries fuel (attempt + 1) sql2 m
            ⟨nxt.result,
              evs0 ++ [Event.connOpen attempt, Event.exec attempt sql2, Event.connClose attempt]
                ++ nxt.events⟩

/-- The retry loop of executeQuery with its source constants: maxRetries =
3, the loop starting at attempt 1 with a null lastError (unused on the
first attempt). -/
def executeQueryRun {α : Type} (env : Env α) (sqlQuery : String) : RunOut α :=
  executeQueryAux env 3 3 1 sqlQuery ""

/-- Embedding of the boundary of executeQuery from QueryProcessor.js: it
first calls createOpenRouterClient, which throws when the key is absent or
empty; the thrown fault escaping executeQuery is the Except.error case,
while a structured return is the Except.ok case. -/
def executeQuery {α : Type} (apiKey : Option String) (env : Env α)
    (sqlQuery : String) : Except String (RunOut α) :=
  if truthy apiKey then Except.ok (executeQueryRun env sqlQuery)
  else Except.error "OpenRouter API key is required"

/-- Number of conn.query invocations in a trace: the execution attempts. -/
def numExec (evs : List Event) : Nat :=
  (evs.filter fun e => match e with | Event.exec _ _ => true | _ => false).length

/-- Number of aiClient.fixSQL invocations in a trace. -/
def numFix (evs : List Event) : Nat :=
  (evs.filter fun e => match e with | Event.fix _ _ _ => true | _ => false).length

/-- Attempt numbers of the successfully opened connections, in order. -/
def opensOf (evs : List Event) : List Nat :=
  evs.filterMap fun e => match e with | Event.connOpen n => some n | _ => none

/-- Attempt numbers of the closed connections, in order. -/
def closesOf (evs : List Event) : List Nat :=
  evs.filterMap fun e => match e with | Event.connClose n => some n | _ => none

/-- One column of a schema snapshot, as built by QueryProcessor.js. -/
structure Column where
  column : String
  type : String
deriving DecidableEq

/-- Oracle for the catalog queries getSchema issues: the rows returned by
the information_schema query of the postgres and mysql branches, the table
names returned by the sqlite_master query, and the rows returned by the
per-table introspection query of the sqlite branch. -/
structure Conn where
  pgRows : List (String × String × String)
  myRows : List (String × String × String)
  masterRows : List String
  tableInfo : String → List (String × String)

/-- Identifies which catalog query was sent over the connection. -/
inductive CatalogQuery where
  | pgCatalog
  | mysqlCatalog
  | sqliteMaster
  | sqliteTableInfo (table : String)
deriving DecidableEq

/-- Embedding of formatSchema from QueryProcessor.js: group catalog rows by
table, keeping first-appearance order of tables (JavaScript object string
keys preserve insertion order) and row order within a table. -/
def addRow : List (String × List Column) → String → Column → List (String × List Column)
  | [], t, c => [(t, [c])]
  | (t0, cs) :: rest, t, c =>
    if t0 == t then (t0, cs ++ [c]) :: rest else (t0, cs) :: addRow rest t c

/-- Embedding of formatSchema from QueryProcessor.js. -/
def formatSchema (rows : List (String × String × String)) : List (String × List Column) :=
  rows.foldl (fun sch r => addRow sch r.1 ⟨r.2.1, r.2.2⟩) []

/-- Embedding of getSchema from QueryProcessor.js, returning the snapshot
(an ordered table-to-columns map) together with the catalog queries issued
on the connection, in order. -/
def getSchema (conn : Conn) (dbType : String) :
    List (String × List Column) × List CatalogQuery :=
  if dbType == "postgres" || dbType == "postgresql" then
    (formatSchema conn.pgRows, [CatalogQuery.pgCatalog])
  else if dbType == "mysql" then
    (formatSchema conn.myRows, [CatalogQuery.mysqlCatalog])
  else if dbType == "sqlite" then
    (conn.masterRows.map (fun n => (n, (conn.tableInfo n).map fun p => ⟨p.1, p.2⟩)),
      CatalogQuery.sqliteMaster :: conn.masterRows.map CatalogQuery.sqliteTableInfo)
  else
    ([], [])

/-- One chat turn as sent to the completion provider. -/
structure ChatMessage where
  role : String
  content : String
deriving DecidableEq

/-- One transcript entry of the query interface; entries may carry an extra
payload (result rows on assistant entries), which the history projection
strips. -/
structure UiMessage (α : Type) where
  role : String
  content : String
  extra : Option α

/-- The user and assistant roles kept for generation context, from
handleSubmit in QueryInterface.js. -/
def isChatRole {α : Type} (m : UiMessage α) : Bool :=
  m.role == "user" || m.role == "assistant"

/-- Embedding of the history construction of handleSubmit in
QueryInterface.js: filter the transcript to user and assistant turns, keep
the last 10 (slice(-10)), and project each to its role and content. -/
def buildHistory {α : Type} (messages : List (UiMessage α)) : List ChatMessage :=
  let turns := messages.filter isChatRole
  (turns.drop (turns.length - 10)).map fun m => ⟨m.role, m.content⟩

/-- Embedding of the messages array built by generateSQL in
OpenRouterClient.js: the system prompt, then the supplied history, then the
new user question. -/
def generateSQLMessages (systemPrompt : String) (history : List ChatMessage)
    (question : String) : List ChatMessage :=
  ⟨"system", systemPrompt⟩ :: (history ++ [⟨"user", question⟩])

/-! ### Reference definitions following the wording of the specification -/

/-- Specification rule 1: splitting the raw string on ";" yields at most
one non-empty (non-blank) statement. -/
def SpecMultiOk (s : List Char) : Prop :=
  ((splitSemi s).filter fun p => !(trimChars p).isEmpty).length ≤ 1

/-- Specification wording of a whole-word, case-insensitive occurrence of a
keyword: at some position the keyword matches case-insensitively, the
character before the position (if any) is not a word character, and the
character after the matched span (if any) is not a word character. -/
def SpecWholeWordOccurs (kw s : List Char) : Prop :=
  ∃ i, (i = 0 ∨ ∃ p, s[i - 1]? = some p ∧ isWordChar p = false) ∧
    matchHere kw (s.drop i) = true

/-- Specification rule 2: no keyword of the forbidden set occurs anywhere
in the raw string as a whole word, case-insensitively. -/
def SpecNoForbidden (s : List Char) : Prop :=
  ∀ kw ∈ dangerousKeywords, ¬ SpecWholeWordOccurs kw.data s

/-- Specification rule 3: after upper-casing and collapsing internal
whitespace (the normal form with single spaces and no surrounding
whitespace), the string starts with SELECT or WITH. -/
def SpecStartsOk (s : List Char) : Prop :=
  List.isPrefixOf "SELECT".data (normalizeSql s) = true ∨
    List.isPrefixOf "WITH".data (normalizeSql s) = true

/-- The three rules of the reference definition of the read-only validator,
as a conjunction. -/
def SpecReadOnly (sql : String) : Prop :=
  SpecMultiOk sql.data ∧ SpecNoForbidden sql.data ∧ SpecStartsOk sql.data

/-! ### Fixed sample data used by the witnesses -/

/-- Fixed sample connection catalog used by witnesses. -/
def sampleConn : Conn :=
  ⟨[], [], ["users", "orders"],
    fun n =>
      if n == "users" then [("id", "INTEGER"), ("name", "TEXT")]
      else [("id", "INTEGER")]⟩

/-- Fixed sample environment: the connection always opens, execution always
fails, and repair always returns a fixed valid SELECT. -/
def sampleEnvFailing : Env Nat :=
  ⟨fun _ => Except.ok (), fun _ _ => Except.error "boom",
    fun _ _ _ => ⟨some "SELECT 2", none⟩⟩

/-- Fixed sample environment whose connection always fails. -/
def sampleEnvNoConnect : Env Nat :=
  ⟨fun _ => Except.error "refused", fun _ _ => Except.ok [],
    fun _ _ _ => ⟨some "SELECT 2", none⟩⟩

/-- Fixed sample environment whose execution fails and whose repair step
itself errors. -/
def sampleEnvRepairErr : Env Nat :=
  ⟨fun _ => Except.ok (), fun _ _ => Except.error "syntax error",
    fun _ _ _ => ⟨none, some "AI down"⟩⟩

/-! ### Helper lemmas -/

lemma matchHere_nil {kw : List Char} (hk : kw ≠ []) : matchHere kw [] = false := by
  cases kw with
  | nil => exact absurd rfl hk
  | cons k ks => simp [matchHere, ciMatch]

lemma scanWholeWord_iff_exists (kw : List Char) (hk : kw ≠ []) (l : List Char) :
    ∀ prev : Option Char,
      scanWholeWord kw prev l = true ↔
        ∃ i, prevOk (if i = 0 then prev else l[i - 1]?) = true ∧
          matchHere kw (l.drop i) = true := by
  induction l with
  | nil =>
    intro prev
    simp [scanWholeWord, matchHere_nil hk]
  | cons c cs ih =>
    intro prev
    constructor
    · intro h
      simp only [scanWholeWord, Bool.or_eq_true, Bool.and_eq_true] at h
      rcases h with ⟨h1, h2⟩ | h
      · exact ⟨0, by simpa using h1, by simpa using h2⟩
      · rcases (ih (some c)).mp h with ⟨i, hp, hm⟩
        refine ⟨i + 1, ?_, ?_⟩
        · cases i with
          | zero => simpa using hp
          | succ j => simpa using hp
        · simpa using hm
    · rintro ⟨i, hp, hm⟩
      cases i with
      | zero =>
        simp only [scanWholeWord, Bool.or_eq_true, Bool.and_eq_true]
        exact Or.inl ⟨by simpa using hp, by simpa using hm⟩
      | succ j =>
        simp only [scanWholeWord, Bool.or_eq_true, Bool.and_eq_true]
        refine Or.inr ((ih (some c)).mpr ⟨j, ?_, ?_⟩)
        · cases j with
          | zero => simpa using hp
          | succ j2 => simpa using hp
        · simpa using hm

lemma hasWholeWordCI_iff_spec (kw : List Char) (hk : kw ≠ []) (s : List Char) :
    hasWholeWordCI kw s = true ↔ SpecWholeWordOccurs kw s := by
  rw [hasWholeWordCI, scanWholeWord_iff_exists kw hk s none]
  constructor
  · rintro ⟨i, hp, hm⟩
    cases i with
    | zero => exact ⟨0, Or.inl rfl, hm⟩
    | succ j =>
      cases hsome : s[j]? with
      | none =>
        exfalso
        have hlen : s.length ≤ j := by
          simpa using hsome
        have hdrop : s.drop (j + 1) = [] :=
          List.drop_eq_nil_of_le (Nat.le_trans hlen (Nat.le_succ j))
        rw [hdrop, matchHere_nil hk] at hm
        exact Bool.false_ne_true hm
      | some p =>
        refine ⟨j + 1, Or.inr ⟨p, by simpa using hsome, ?_⟩, hm⟩
        have : prevOk (some p) = true := by simpa [hsome] using hp
        simpa [prevOk] using this
  · rintro ⟨i, hor, hm⟩
    refine ⟨i, ?_, hm⟩
    rcases hor with rfl | ⟨p, hsome, hw⟩
    · simp [prevOk]
    · cases i with
      | zero => simp [prevOk]
      | succ j =>
        have : s[j]? = some p := by simpa using hsome
        simp [this, prevOk, hw]

lemma splitSemi_no_semi (s : List Char) (h : s.contains ';' = false) :
    splitSemi s = [s] := by
  induction s with
  | nil => rfl
  | cons c cs ih =>
    have hc : (';' == c) = false ∧ cs.contains ';' = false := by
      simpa [List.contains_cons] using h
    have hne : (c == ';') = false := by
      rcases hc with ⟨h1, _⟩
      have : ¬ (';' = c) := by simpa using h1
      simp [beq_eq_false_iff_ne]
      exact fun hcc => this hcc.symm
    rw [splitSemi, ih hc.2]
    simp [hne]

lemma dangerousKeywords_data_ne_nil : ∀ kw ∈ dangerousKeywords, kw.data ≠ [] := by
  decide

/-- C1. The executable validator isReadOnlyQuery accepts a SQL string
exactly when the string satisfies the three rules of the reference
specification: at most one non-blank statement when split on ";", no
whole-word case-insensitive occurrence of any forbidden keyword, and a
normalised form starting with SELECT or WITH. -/
theorem isReadOnlyQuery_iff_spec (sql : String) :
    isReadOnlyQuery sql = true ↔ SpecReadOnly sql := by
  have hmulti :
      (sql.data.contains ';' &&
          decide (((splitSemi sql.data).filter fun p => !(trimChars p).isEmpty).length > 1))
            = true
        ↔ ¬ SpecMultiOk sql.data := by
    constructor
    · intro h
      have h2 := (Bool.and_eq_true _ _).mp h
      have := of_decide_eq_true h2.2
      simp only [SpecMultiOk]
      omega
    · intro h
      have hgt : ((splitSemi sql.data).filter fun p => !(trimChars p).isEmpty).length > 1 := by
        simp only [SpecMultiOk] at h
        omega
      have hcontains : sql.data.contains ';' = true := by
        by_contra hc
        have hc2 : sql.data.contains ';' = false := by
          simpa using hc
        rw [splitSemi_no_semi sql.data hc2] at hgt
        have : ((List.filter (fun p => !(trimChars p).isEmpty) [sql.data])).length ≤ 1 := by
          by_cases hf : (!(trimChars sql.data).isEmpty) = true <;> simp [hf]
        omega
      rw [hcontains]
      simpa using hgt
  have hkw :
      (dangerousKeywords.any fun kw => hasWholeWordCI kw.data sql.data) = false
        ↔ SpecNoForbidden sql.data := by
    rw [← Bool.not_eq_true, List.any_eq_true]
    constructor
    · intro h kw hmem hocc
      exact h ⟨kw, hmem,
        (hasWholeWordCI_iff_spec kw.data (dangerousKeywords_data_ne_nil kw hmem) sql.data).mpr hocc⟩
    · rintro h ⟨kw, hmem, hscan⟩
      exact h kw hmem
        ((hasWholeWordCI_iff_spec kw.data (dangerousKeywords_data_ne_nil kw hmem) sql.data).mp hscan)
  rw [isReadOnlyQuery, SpecReadOnly]
  by_cases hm :
      (sql.data.contains ';' &&
          decide (((splitSemi sql.data).filter fun p => !(trimChars p).isEmpty).length > 1))
        = true
  · simp only [hm, if_true]
    constructor
    · intro h
      exact absurd h Bool.false_ne_true
    · rintro ⟨h1, _, _⟩
      exact absurd h1 (hmulti.mp hm)
  · have hm2 := Bool.not_eq_true _ ▸ hm
    have hmOk : SpecMultiOk sql.data := by
      by_contra hno
      exact hm (hmulti.mpr hno)
    simp only [Bool.not_eq_true] at hm2
    simp only [hm2, Bool.false_eq_true, if_false]
    by_cases hk : (dangerousKeywords.any fun kw => hasWholeWordCI kw.data sql.data) = true
    · simp only [hk, if_true]
      constructor
      · intro h
        exact absurd h Bool.false_ne_true
      · rintro ⟨_, h2, _⟩
        have := hkw.mpr h2
        rw [hk] at this
        exact absurd this (by decide)
    · have hk2 : (dangerousKeywords.any fun kw => hasWholeWordCI kw.data sql.data) = false := by
        simpa using hk
      have hkOk : SpecNoForbidden sql.data := hkw.mp hk2
      simp only [hk2, Bool.false_eq_true, if_false]
      rw [Bool.or_eq_true]
      constructor
      · intro h
        exact ⟨hmOk, hkOk, h⟩
      · rintro ⟨_, _, h3⟩
        exact h3

lemma dropWhile_head_not {p : Char → Bool} (l : List Char) :
    ∀ c cs, List.dropWhile p l = c :: cs → p c = false := by
  induction l with
  | nil =>
    intro c cs h
    simp [List.dropWhile] at h
  | cons a as ih =>
    intro c cs h
    rw [List.dropWhile_cons] at h
    by_cases hp : p a = true
    · rw [if_pos (by simp [hp])] at h
      exact ih c cs h
    · have hp2 : p a = false := by simpa using hp
      rw [if_neg (by simp [hp2])] at h
      cases h
      exact hp2

lemma trimChars_idem (l : List Char) : trimChars (trimChars l) = trimChars l := by
  unfold trimChars
  have hx : List.dropWhile isWS (List.rdropWhile isWS (List.dropWhile isWS l))
      = List.rdropWhile isWS (List.dropWhile isWS l) := by
    cases hr : List.rdropWhile isWS (List.dropWhile isWS l) with
    | nil => simp
    | cons c cs =>
      obtain ⟨t, ht⟩ := List.rdropWhile_prefix isWS (List.dropWhile isWS l)
      rw [hr] at ht
      have hd : List.dropWhile isWS l = c :: (cs ++ t) := by
        rw [← ht]
        simp
      have hc : isWS c = false := dropWhile_head_not l c (cs ++ t) hd
      rw [List.dropWhile_cons, if_neg (by simp [hc])]
  rw [hx, List.rdropWhile_idempotent]

lemma cleanSqlData_trimmed (l : List Char) :
    trimChars (cleanSqlData l) = cleanSqlData l := by
  unfold cleanSqlData
  exact trimChars_idem _

/-- C7 counterexample. The code-fence cleanup is not idempotent on every
string: cleaning the already-cleaned string obtained from a string ending
in two fences strips one more fence. -/
theorem cleanSqlResponse_not_idempotent :
    ¬ (cleanSqlResponse (cleanSqlResponse "a``````") = cleanSqlResponse "a``````") := by
  decide

/-- C7 amended. The cleanup is idempotent on every string whose cleaned
form neither starts nor ends with a code fence, and in particular cleaning
the fenced string of the specification yields SELECT 1 and cleaning that
result again yields SELECT 1. -/
theorem cleanSqlResponse_idem_amended :
    (∀ s : String,
        List.isPrefixOf "```".data (cleanSqlResponse s).data = false →
        List.isSuffixOf "```".data (cleanSqlResponse s).data = false →
        cleanSqlResponse (cleanSqlResponse s) = cleanSqlResponse s) ∧
      cleanSqlResponse "```sql\nSELECT 1\n```" = "SELECT 1" ∧
      cleanSqlResponse "SELECT 1" = "SELECT 1" := by
  refine ⟨?_, by decide, by decide⟩
  intro s h1 h2
  show (⟨cleanSqlData (cleanSqlResponse s).data⟩ : String) = cleanSqlResponse s
  have hdata : (cleanSqlResponse s).data = cleanSqlData s.data := rfl
  suffices h : cleanSqlData (cleanSqlData s.data) = cleanSqlData s.data by
    rw [hdata, h]
    rfl
  rw [hdata] at h1 h2
  have htrim : trimChars (cleanSqlData s.data) = cleanSqlData s.data :=
    cleanSqlData_trimmed s.data
  have h1sql : List.isPrefixOf "```sql".data (cleanSqlData s.data) = false := by
    by_contra hcon
    have hT : List.isPrefixOf "```sql".data (cleanSqlData s.data) = true := by
      simpa using hcon
    have hpre : ("```".data : List Char) <+: "```sql".data := ⟨"sql".data, rfl⟩
    have : ("```".data : List Char) <+: cleanSqlData s.data :=
      hpre.trans (List.isPrefixOf_iff_prefix.mp hT)
    rw [← List.isPrefixOf_iff_prefix, h1] at this
    exact absurd this (by decide)
  conv_lhs => rw [cleanSqlData]
  rw [htrim, h1sql, h1]
  simp only [Bool.false_eq_true, if_false]
  rw [h2]
  simp only [Bool.false_eq_true, if_false]
  exact htrim

/-- C7 witness: the amended idempotence applied at the concrete cleaned
string SELECT 1, whose cleaned form has no fence at either end. -/
theorem cleanSqlResponse_idem_amended_witness :
    cleanSqlResponse (cleanSqlResponse "SELECT 1") = cleanSqlResponse "SELECT 1" :=
  cleanSqlResponse_idem_amended.1 "SELECT 1" (by decide) (by decide)

/-- C10. The history supplied to the SQL generation call has at most 10
turns, is a suffix of the chronological user and assistant turns of the
transcript (hence the most recent ones, in order), and the generation
request consists of exactly the system prompt, that history, and the new
user question, in that order. -/
theorem history_window_spec {α : Type} (messages : List (UiMessage α))
    (systemPrompt question : String) :
    (buildHistory messages).length ≤ 10 ∧
      buildHistory messages <:+
        ((messages.filter isChatRole).map fun m => ChatMessage.mk m.role m.content) ∧
      generateSQLMessages systemPrompt (buildHistory messages) question =
        ChatMessage.mk "system" systemPrompt ::
          (buildHistory messages ++ [ChatMessage.mk "user" question]) := by
  refine ⟨?_, ?_, rfl⟩
  · show ((((messages.filter isChatRole)).drop _).map _).length ≤ 10
    rw [List.length_map, List.length_drop]
    omega
  · show (((messages.filter isChatRole)).drop _).map _ <:+ _
    rw [List.map_drop]
    exact List.drop_suffix _ _

/-- C8. getSchema returns the empty snapshot, issuing no catalog query, for
every dialect other than postgres, postgresql, mysql and sqlite; and for
the sqlite dialect, when the catalog query returns exactly the user tables
not carrying the reserved sqlite_ prefix, the snapshot maps exactly those
tables, in listing order, to their introspected columns in declared order,
with one per-table introspection query issued after the master query. -/
theorem getSchema_dialects :
    (∀ (conn : Conn) (d : String),
        d ≠ "postgres" → d ≠ "postgresql" → d ≠ "mysql" → d ≠ "sqlite" →
        getSchema conn d = ([], [])) ∧
      ∀ (conn : Conn) (allTables : List String),
        conn.masterRows =
            allTables.filter (fun n => !(List.isPrefixOf "sqlite_".data n.data)) →
        getSchema conn "sqlite" =
          ((allTables.filter (fun n => !(List.isPrefixOf "sqlite_".data n.data))).map
              (fun n => (n, (conn.tableInfo n).map fun p => Column.mk p.1 p.2)),
            CatalogQuery.sqliteMaster ::
              (allTables.filter
                  (fun n => !(List.isPrefixOf "sqlite_".data n.data))).map
                CatalogQuery.sqliteTableInfo) := by
  constructor
  · intro conn d h1 h2 h3 h4
    rw [getSchema]
    rw [if_neg, if_neg, if_neg]
    · simpa using h4
    · simpa using h3
    · simp [h1, h2]
  · intro conn allTables hmaster
    rw [getSchema]
    rw [if_neg (by decide), if_neg (by decide), if_pos (by decide), hmaster]

/-- C8 witness: the dialect fallthrough at a concrete unrecognized dialect
and the sqlite snapshot at a concrete catalog containing a reserved
sqlite_ table. -/
theorem getSchema_dialects_witness :
    getSchema sampleConn "bigquery" = ([], []) ∧
      getSchema sampleConn "sqlite" =
        ((["users", "sqlite_sequence", "orders"].filter
              (fun n => !(List.isPrefixOf "sqlite_".data n.data))).map
            (fun n => (n, (sampleConn.tableInfo n).map fun p => Column.mk p.1 p.2)),
          CatalogQuery.sqliteMaster ::
            (["users", "sqlite_sequence", "orders"].filter
                (fun n => !(List.isPrefixOf "sqlite_".data n.data))).map
              CatalogQuery.sqliteTableInfo) :=
  ⟨getSchema_dialects.1 sampleConn "bigquery" (by decide) (by decide) (by decide) (by decide),
    getSchema_dialects.2 sampleConn ["users", "sqlite_sequence", "orders"] (by decide)⟩

/-- C6. The claim that both pipeline operations always return structured
results fails on the code: with an absent or empty API key, executeQuery
calls createOpenRouterClient before any guard, and the throw escapes the
function (the Except.error case, a rejected promise at the call site),
whereas generateQuery guards the key and returns the structured
configuration error. -/
theorem executeQuery_missing_key_fault {α : Type} (env : Env α) (sqlQuery : String) :
    executeQuery none env sqlQuery = Except.error "OpenRouter API key is required" ∧
      executeQuery (some "") env sqlQuery = Except.error "OpenRouter API key is required" ∧
      generateQuery none ⟨none, none⟩ =
        ⟨none, some "OPENROUTER_KEY environment variable is required"⟩ ∧
      generateQuery (some "") ⟨none, none⟩ =
        ⟨none, some "OPENROUTER_KEY environment variable is required"⟩ :=
  ⟨rfl, rfl, rfl, rfl⟩

lemma exec_events_valid {α : Type} (env : Env α) (mr : Nat) :
    ∀ fuel attempt sql lastErr,
      isReadOnlyQuery sql = true →
      ∀ a s2, Event.exec a s2 ∈ (executeQueryAux env mr fuel attempt sql lastErr).events →
        isReadOnlyQuery s2 = true := by
  intro fuel
  induction fuel with
  | zero =>
    intro attempt sql le hsql a s2 hmem
    simp [executeQueryAux] at hmem
  | succ fuel ih =>
    intro attempt sql le hsql a s2 hmem
    by_cases ha : 1 < attempt
    · rcases hfix : env.fix attempt sql le with ⟨fsql, ferr⟩
      by_cases herr : truthy ferr = true
      · simp [executeQueryAux, ha, hfix, herr] at hmem
      · have herr2 : truthy ferr = false := by simpa using herr
        by_cases hval : isReadOnlyQuery (cleanSqlResponse (fsql.getD "")) = true
        · cases hconn : env.connect attempt with
          | error m =>
            simp [executeQueryAux, ha, hfix, herr2, hval, hconn] at hmem
          | ok u =>
            cases hrun : env.run attempt (cleanSqlResponse (fsql.getD "")) with
            | ok rows =>
              simp [executeQueryAux, ha, hfix, herr2, hval, hconn, hrun] at hmem
              rw [hmem.2]
              exact hval
            | error m =>
              by_cases hlast : attempt = mr
              · subst hlast
                simp [executeQueryAux, ha, hfix, herr2, hval, hconn, hrun] at hmem
                rw [hmem.2]
                exact hval
              · simp [executeQueryAux, ha, hfix, herr2, hval, hconn, hrun, hlast] at hmem
                rcases hmem with ⟨_, h2⟩ | h
                · rw [h2]
                  exact hval
                · exact ih (attempt + 1) (cleanSqlResponse (fsql.getD "")) m hval a s2 h
        · have hval2 : isReadOnlyQuery (cleanSqlResponse (fsql.getD "")) = false := by
            simpa using hval
          simp [executeQueryAux, ha, hfix, herr2, hval2] at hmem
    · cases hconn : env.connect attempt with
      | error m =>
        simp [executeQueryAux, ha, hconn] at hmem
      | ok u =>
        cases hrun : env.run attempt sql with
        | ok rows =>
          simp [executeQueryAux, ha, hconn, hrun] at hmem
          rw [hmem.2]
          exact hsql
        | error m =>
          by_cases hlast : attempt = mr
          · subst hlast
            simp [executeQueryAux, ha, hconn, hrun] at hmem
            rw [hmem.2]
            exact hsql
          · simp [executeQueryAux, ha, hconn, hrun, hlast] at hmem
            rcases hmem with ⟨_, h2⟩ | h
            · rw [h2]
              exact hsql
            · exact ih (attempt + 1) sql m hsql a s2 h

/-- C2. Everything that reaches execution has passed the validator: a
successful generateQuery always carries a cleaned SQL accepted by
isReadOnlyQuery, and in every run of the execution loop whose initial SQL
passed isReadOnlyQuery, every SQL string handed to conn.query passed
isReadOnlyQuery as well (a repaired SQL failing the check terminates the
run instead of being executed). -/
theorem validated_sql_reaches_execution {α : Type} :
    (∀ (key : Option String) (aiResult : GenResult),
        (generateQuery key aiResult).error = none →
        ∃ s, (generateQuery key aiResult).sql = some s ∧ isReadOnlyQuery s = true) ∧
      ∀ (env : Env α) (sqlQuery : String),
        isReadOnlyQuery sqlQuery = true →
        ∀ a s2, Event.exec a s2 ∈ (executeQueryRun env sqlQuery).events →
          isReadOnlyQuery s2 = true := by
  constructor
  · intro key aiResult hok
    rw [generateQuery] at hok ⊢
    by_cases hkey : truthy key = true
    · simp only [hkey, Bool.not_true, Bool.false_eq_true, if_false] at hok ⊢
      by_cases herr : truthy aiResult.error = true
      · rw [if_pos herr] at hok
        exfalso
        have : aiResult.error = none := hok
        rw [this] at herr
        exact absurd herr (by decide)
      · have herr2 : truthy aiResult.error = false := by simpa using herr
        simp only [herr2, Bool.false_eq_true, if_false] at hok ⊢
        by_cases hval : isReadOnlyQuery (cleanSqlResponse (aiResult.sql.getD "")) = true
        · simp only [hval, Bool.not_true, Bool.false_eq_true, if_false]
          exact ⟨cleanSqlResponse (aiResult.sql.getD ""), rfl, hval⟩
        · have hval2 : isReadOnlyQuery (cleanSqlResponse (aiResult.sql.getD "")) = false := by
            simpa using hval
          rw [hval2] at hok
          simp at hok
    · have hkey2 : truthy key = false := by simpa using hkey
      rw [hkey2] at hok
      simp at hok
  · intro env sqlQuery hsql a s2 hmem
    exact exec_events_valid env 3 3 1 sqlQuery "" hsql a s2 hmem

/-- C2 witness: the generateQuery half at a concrete successful generation
and the execution half at a concrete run whose initial SQL is valid. -/
theorem validated_sql_reaches_execution_witness :
    (∃ s, (generateQuery (some "k") ⟨some "SELECT 1", none⟩).sql = some s ∧
        isReadOnlyQuery s = true) ∧
      ∀ a s2, Event.exec a s2 ∈ (executeQueryRun sampleEnvFailing "SELECT 1").events →
        isReadOnlyQuery s2 = true :=
  ⟨(validated_sql_reaches_execution (α := Nat)).1 (some "k") ⟨some "SELECT 1", none⟩ (by decide),
    fun a s2 hmem =>
      (validated_sql_reaches_execution (α := Nat)).2 sampleEnvFailing "SELECT 1"
        (by decide) a s2 hmem⟩

lemma connFail_terminal_aux {α : Type} (env : Env α) (mr : Nat) :
    ∀ fuel attempt sql lastErr n m,
      Event.connFail n m ∈ (executeQueryAux env mr fuel attempt sql lastErr).events →
        (executeQueryAux env mr fuel attempt sql lastErr).result.error
            = some ("Failed to connect: " ++ m) ∧
          (executeQueryAux env mr fuel attempt sql lastErr).events.getLast?
            = some (Event.connFail n m) := by
  intro fuel
  induction fuel with
  | zero =>
    intro attempt sql le n m hmem
    simp [executeQueryAux] at hmem
  | succ fuel ih =>
    intro attempt sql le n m hmem
    by_cases ha : 1 < attempt
    · rcases hfix : env.fix attempt sql le with ⟨fsql, ferr⟩
      by_cases herr : truthy ferr = true
      · have heq : executeQueryAux env mr (fuel + 1) attempt sql le
            = ⟨⟨ferr, sql, none⟩, [Event.fix attempt sql le]⟩ := by
          simp [executeQueryAux, ha, hfix, herr]
        rw [heq] at hmem
        simp at hmem
      · have herr2 : truthy ferr = false := by simpa using herr
        by_cases hval : isReadOnlyQuery (cleanSqlResponse (fsql.getD "")) = true
        · cases hconn : env.connect attempt with
          | error m2 =>
            have heq : executeQueryAux env mr (fuel + 1) attempt sql le
                = ⟨⟨some ("Failed to connect: " ++ m2), cleanSqlResponse (fsql.getD ""), none⟩,
                    [Event.fix attempt sql le, Event.connFail attempt m2]⟩ := by
              simp [executeQueryAux, ha, hfix, herr2, hval, hconn]
            rw [heq] at hmem ⊢
            simp only [List.mem_cons, List.not_mem_nil, or_false] at hmem
            rcases hmem with h | h
            · exact absurd h (by simp)
            · rcases h with ⟨rfl, rfl⟩
              exact ⟨rfl, by simp⟩
          | ok u =>
            cases hrun : env.run attempt (cleanSqlResponse (fsql.getD "")) with
            | ok rows =>
              have heq : executeQueryAux env mr (fuel + 1) attempt sql le
                  = ⟨⟨none, cleanSqlResponse (fsql.getD ""), some rows⟩,
                      [Event.fix attempt sql le, Event.connOpen attempt,
                        Event.exec attempt (cleanSqlResponse (fsql.getD "")),
                        Event.connClose attempt]⟩ := by
                simp [executeQueryAux, ha, hfix, herr2, hval, hconn, hrun]
              rw [heq] at hmem
              simp at hmem
            | error m2 =>
              by_cases hlast : attempt = mr
              · rw [hlast] at ha hfix hconn hrun hmem
                have heq : executeQueryAux env mr (fuel + 1) mr sql le
                    = ⟨⟨some ("Query failed after " ++ toString mr ++ " attempts: " ++ m2),
                          cleanSqlResponse (fsql.getD ""), none⟩,
                        [Event.fix mr sql le, Event.connOpen mr,
                          Event.exec mr (cleanSqlResponse (fsql.getD "")),
                          Event.connClose mr]⟩ := by
                  simp [executeQueryAux, ha, hfix, herr2, hval, hconn, hrun]
                rw [heq] at hmem
                simp at hmem
              · have heq : executeQueryAux env mr (fuel + 1) attempt sql le
                    = ⟨(executeQueryAux env mr fuel (attempt + 1)
                          (cleanSqlResponse (fsql.getD "")) m2).result,
                        [Event.fix attempt sql le, Event.connOpen attempt,
                            Event.exec attempt (cleanSqlResponse (fsql.getD "")),
                            Event.connClose attempt] ++
                          (executeQueryAux env mr fuel (attempt + 1)
                            (cleanSqlResponse (fsql.getD "")) m2).events⟩ := by
                  simp [executeQueryAux, ha, hfix, herr2, hval, hconn, hrun, hlast]
                rw [heq] at hmem ⊢
                rw [List.mem_append] at hmem
                rcases hmem with h | h
                · simp at h
                · have hne : (executeQueryAux env mr fuel (attempt + 1)
                      (cleanSqlResponse (fsql.getD "")) m2).events ≠ [] :=
                    List.ne_nil_of_mem h
                  have hih := ih (attempt + 1) (cleanSqlResponse (fsql.getD "")) m2 n m h
                  exact ⟨hih.1, by rw [List.getLast?_append_of_ne_nil _ hne]; exact hih.2⟩
        · have hval2 : isReadOnlyQuery (cleanSqlResponse (fsql.getD "")) = false := by
            simpa using hval
          have heq : executeQueryAux env mr (fuel + 1) attempt sql le
              = ⟨⟨some "Only SELECT queries are allowed", cleanSqlResponse (fsql.getD ""), none⟩,
                  [Event.fix attempt sql le]⟩ := by
            simp [executeQueryAux, ha, hfix, herr2, hval2]
          rw [heq] at hmem
          simp at hmem
    · cases hconn : env.connect attempt with
      | error m2 =>
        have heq : executeQueryAux env mr (fuel + 1) attempt sql le
            = ⟨⟨some ("Failed to connect: " ++ m2), sql, none⟩,
                [Event.connFail attempt m2]⟩ := by
          simp [executeQueryAux, ha, hconn]
        rw [heq] at hmem ⊢
        simp only [List.mem_cons, List.not_mem_nil, or_false] at hmem
        rcases hmem with ⟨rfl, rfl⟩
        exact ⟨rfl, by simp⟩
      | ok u =>
        cases hrun : env.run attempt sql with
        | ok rows =>
          have heq : executeQueryAux env mr (fuel + 1) attempt sql le
              = ⟨⟨none, sql, some rows⟩,
                  [Event.connOpen attempt, Event.exec attempt sql, Event.connClose attempt]⟩ := by
            simp [executeQueryAux, ha, hconn, hrun]
          rw [heq] at hmem
          simp at hmem
        | error m2 =>
          by_cases hlast : attempt = mr
          · rw [hlast] at ha hconn hrun hmem
            have heq : executeQueryAux env mr (fuel + 1) mr sql le
                = ⟨⟨some ("Query failed after " ++ toString mr ++ " attempts: " ++ m2), sql, none⟩,
                    [Event.connOpen mr, Event.exec mr sql, Event.connClose mr]⟩ := by
              simp [executeQueryAux, ha, hconn, hrun]
            rw [heq] at hmem
            simp at hmem
          · have heq : executeQueryAux env mr (fuel + 1) attempt sql le
                = ⟨(executeQueryAux env mr fuel (attempt + 1) sql m2).result,
                    [Event.connOpen attempt, Event.exec attempt sql, Event.connClose attempt] ++
                      (executeQueryAux env mr fuel (attempt + 1) sql m2).events⟩ := by
              simp [executeQueryAux, ha, hconn, hrun, hlast]
            rw [heq] at hmem ⊢
            rw [List.mem_append] at hmem
            rcases hmem with h | h
            · simp at h
            · have hne : (executeQueryAux env mr fuel (attempt + 1) sql m2).events ≠ [] :=
                List.ne_nil_of_mem h
              have hih := ih (attempt + 1) sql m2 n m h
              exact ⟨hih.1, by rw [List.getLast?_append_of_ne_nil _ hne]; exact hih.2⟩

/-- C5. A connection failure is always terminal: if createConnection fails
on the very first attempt, the run returns the connection error at once,
with the input SQL, null data and a trace holding nothing but the failure
(so the repair step was never invoked); and whenever a connection failure
occurs at any attempt of any run, the run result carries that connection
error and the failure is the final event of the trace, so the failure is
never retried and nothing runs after it. -/
theorem connect_failure_is_terminal {α : Type} (env : Env α) :
    (∀ (sqlQuery m : String),
        env.connect 1 = Except.error m →
        executeQueryRun env sqlQuery =
          ⟨⟨some ("Failed to connect: " ++ m), sqlQuery, none⟩, [Event.connFail 1 m]⟩) ∧
      ∀ (sqlQuery : String) (n : Nat) (m : String),
        Event.connFail n m ∈ (executeQueryRun env sqlQuery).events →
          (executeQueryRun env sqlQuery).result.error = some ("Failed to connect: " ++ m) ∧
            (executeQueryRun env sqlQuery).events.getLast? = some (Event.connFail n m) := by
  constructor
  · intro sqlQuery m hconn
    rw [executeQueryRun]
    simp [executeQueryAux, hconn]
  · intro sqlQuery n m hmem
    exact connFail_terminal_aux env 3 3 1 sqlQuery "" n m hmem

/-- C5 witness: a concrete run whose first connection attempt fails. -/
theorem connect_failure_is_terminal_witness :
    executeQueryRun sampleEnvNoConnect "SELECT 1" =
        ⟨⟨some ("Failed to connect: " ++ "refused"), "SELECT 1", none⟩,
          [Event.connFail 1 "refused"]⟩ ∧
      (executeQueryRun sampleEnvNoConnect "SELECT 1").result.error
          = some ("Failed to connect: " ++ "refused") ∧
        (executeQueryRun sampleEnvNoConnect "SELECT 1").events.getLast?
          = some (Event.connFail 1 "refused") :=
  ⟨(connect_failure_is_terminal sampleEnvNoConnect).1 "SELECT 1" "refused" rfl,
    (connect_failure_is_terminal sampleEnvNoConnect).2 "SELECT 1" 1 "refused" (by decide)⟩

lemma opens_closes_aux {α : Type} (env : Env α) (mr : Nat) :
    ∀ fuel attempt sql lastErr,
      opensOf (executeQueryAux env mr fuel attempt sql lastErr).events
          = closesOf (executeQueryAux env mr fuel attempt sql lastErr).events ∧
        (opensOf (executeQueryAux env mr fuel attempt sql lastErr).events).Nodup ∧
        ∀ x ∈ opensOf (executeQueryAux env mr fuel attempt sql lastErr).events, attempt ≤ x := by
  intro fuel
  induction fuel with
  | zero =>
    intro attempt sql le
    simp [executeQueryAux, opensOf, closesOf]
  | succ fuel ih =>
    intro attempt sql le
    by_cases ha : 1 < attempt
    · rcases hfix : env.fix attempt sql le with ⟨fsql, ferr⟩
      by_cases herr : truthy ferr = true
      · have heq : executeQueryAux env mr (fuel + 1) attempt sql le
            = ⟨⟨ferr, sql, none⟩, [Event.fix attempt sql le]⟩ := by
          simp [executeQueryAux, ha, hfix, herr]
        rw [heq]
        simp [opensOf, closesOf]
      · have herr2 : truthy ferr = false := by simpa using herr
        by_cases hval : isReadOnlyQuery (cleanSqlResponse (fsql.getD "")) = true
        · cases hconn : env.connect attempt with
          | error m2 =>
            have heq : executeQueryAux env mr (fuel + 1) attempt sql le
                = ⟨⟨some ("Failed to connect: " ++ m2), cleanSqlResponse (fsql.getD ""), none⟩,
                    [Event.fix attempt sql le, Event.connFail attempt m2]⟩ := by
              simp [executeQueryAux, ha, hfix, herr2, hval, hconn]
            rw [heq]
            simp [opensOf, closesOf]
          | ok u =>
            cases hrun : env.run attempt (cleanSqlResponse (fsql.getD "")) with
            | ok rows =>
              have heq : executeQueryAux env mr (fuel + 1) attempt sql le
                  = ⟨⟨none, cleanSqlResponse (fsql.getD ""), some rows⟩,
                      [Event.fix attempt sql le, Event.connOpen attempt,
                        Event.exec attempt (cleanSqlResponse (fsql.getD "")),
                        Event.connClose attempt]⟩ := by
                simp [executeQueryAux, ha, hfix, herr2, hval, hconn, hrun]
              rw [heq]
              simp [opensOf, closesOf]
            | error m2 =>
              by_cases hlast : attempt = mr
              · rw [hlast] at ha hfix hconn hrun
                rw [hlast]
                have heq : executeQueryAux env mr (fuel + 1) mr sql le
                    = ⟨⟨some ("Query failed after " ++ toString mr ++ " attempts: " ++ m2),
                          cleanSqlResponse (fsql.getD ""), none⟩,
                        [Event.fix mr sql le, Event.connOpen mr,
                          Event.exec mr (cleanSqlResponse (fsql.getD "")),
                          Event.connClose mr]⟩ := by
                  simp [executeQueryAux, ha, hfix, herr2, hval, hconn, hrun]
                rw [heq]
                simp [opensOf, closesOf]
              · have heq : executeQueryAux env mr (fuel + 1) attempt sql le
                    = ⟨(executeQueryAux env mr fuel (attempt + 1)
                          (cleanSqlResponse (fsql.getD "")) m2).result,
                        [Event.fix attempt sql le, Event.connOpen attempt,
                            Event.exec attempt (cleanSqlResponse (fsql.getD "")),
                            Event.connClose attempt] ++
                          (executeQueryAux env mr fuel (attempt + 1)
                            (cleanSqlResponse (fsql.getD "")) m2).events⟩ := by
                  simp [executeQueryAux, ha, hfix, herr2, hval, hconn, hrun, hlast]
                rw [heq]
                have hih := ih (attempt + 1) (cleanSqlResponse (fsql.getD "")) m2
                dsimp only
                have hopen : opensOf
                    ([Event.fix attempt sql le, Event.connOpen attempt,
                        Event.exec attempt (cleanSqlResponse (fsql.getD "")),
                        Event.connClose attempt] ++
                      (executeQueryAux env mr fuel (attempt + 1)
                        (cleanSqlResponse (fsql.getD "")) m2).events)
                    = attempt :: opensOf (executeQueryAux env mr fuel (attempt + 1)
                        (cleanSqlResponse (fsql.getD "")) m2).events := by
                  simp [opensOf]
                have hclose : closesOf
                    ([Event.fix attempt sql le, Event.connOpen attempt,
                        Event.exec attempt (cleanSqlResponse (fsql.getD "")),
                        Event.connClose attempt] ++
                      (executeQueryAux env mr fuel (attempt + 1)
                        (cleanSqlResponse (fsql.getD "")) m2).events)
                    = attempt :: closesOf (executeQueryAux env mr fuel (attempt + 1)
                        (cleanSqlResponse (fsql.getD "")) m2).events := by
                  simp [closesOf]
                rw [hopen, hclose, hih.1]
                refine ⟨rfl, ?_, ?_⟩
                · rw [← hih.1, List.nodup_cons]
                  refine ⟨fun hin => ?_, hih.2.1⟩
                  have := hih.2.2 attempt hin
                  omega
                · rw [← hih.1]
                  intro x hx
                  rcases List.mem_cons.mp hx with rfl | hx2
                  · exact Nat.le_refl _
                  · exact Nat.le_trans (Nat.le_succ _) (hih.2.2 x hx2)
        · have hval2 : isReadOnlyQuery (cleanSqlResponse (fsql.getD "")) = false := by
            simpa using hval
          have heq : executeQueryAux env mr (fuel + 1) attempt sql le
              = ⟨⟨some "Only SELECT queries are allowed", cleanSqlResponse (fsql.getD ""), none⟩,
                  [Event.fix attempt sql le]⟩ := by
            simp [executeQueryAux, ha, hfix, herr2, hval2]
          rw [heq]
          simp [opensOf, closesOf]
    · cases hconn : env.connect attempt with
      | error m2 =>
        have heq : executeQueryAux env mr (fuel + 1) attempt sql le
            = ⟨⟨some ("Failed to connect: " ++ m2), sql, none⟩,
                [Event.connFail attempt m2]⟩ := by
          simp [executeQueryAux, ha, hconn]
        rw [heq]
        simp [opensOf, closesOf]
      | ok u =>
        cases hrun : env.run attempt sql with
        | ok rows =>
          have heq : executeQueryAux env mr (fuel + 1) attempt sql le
              = ⟨⟨none, sql, some rows⟩,
                  [Event.connOpen attempt, Event.exec attempt sql, Event.connClose attempt]⟩ := by
            simp [executeQueryAux, ha, hconn, hrun]
          rw [heq]
          simp [opensOf, closesOf]
        | error m2 =>
          by_cases hlast : attempt = mr
          · rw [hlast] at ha hconn hrun
            rw [hlast]
            have heq : executeQueryAux env mr (fuel + 1) mr sql le
                = ⟨⟨some ("Query failed after " ++ toString mr ++ " attempts: " ++ m2), sql, none⟩,
                    [Event.connOpen mr, Event.exec mr sql, Event.connClose mr]⟩ := by
              simp [executeQueryAux, ha, hconn, hrun]
            rw [heq]
            simp [opensOf, closesOf]
          · have heq : executeQueryAux env mr (fuel + 1) attempt sql le
                = ⟨(executeQueryAux env mr fuel (attempt + 1) sql m2).result,
                    [Event.connOpen attempt, Event.exec attempt sql, Event.connClose attempt] ++
                      (executeQueryAux env mr fuel (attempt + 1) sql m2).events⟩ := by
              simp [executeQueryAux, ha, hconn, hrun, hlast]
            rw [heq]
            have hih := ih (attempt + 1) sql m2
            dsimp only
            have hopen : opensOf
                ([Event.connOpen attempt, Event.exec attempt sql, Event.connClose attempt] ++
                  (executeQueryAux env mr fuel (attempt + 1) sql m2).events)
                = attempt :: opensOf (executeQueryAux env mr fuel (attempt + 1) sql m2).events := by
              simp [opensOf]
            have hclose : closesOf
                ([Event.connOpen attempt, Event.exec attempt sql, Event.connClose attempt] ++
                  (executeQueryAux env mr fuel (attempt + 1) sql m2).events)
                = attempt :: closesOf (executeQueryAux env mr fuel (attempt + 1) sql m2).events := by
              simp [closesOf]
            rw [hopen, hclose, hih.1]
            refine ⟨rfl, ?_, ?_⟩
            · rw [← hih.1, List.nodup_cons]
              refine ⟨fun hin => ?_, hih.2.1⟩
              have := hih.2.2 attempt hin
              omega
            · rw [← hih.1]
              intro x hx
              rcases List.mem_cons.mp hx with rfl | hx2
              · exact Nat.le_refl _
              · exact Nat.le_trans (Nat.le_succ _) (hih.2.2 x hx2)

/-- C9. In every run, the attempt numbers of the successfully opened
connections and of the closed connections form the same list (every opened
connection is closed, in order, one close per open), and the opened
attempts are pairwise distinct: each attempt opens at most one fresh
connection of its own and none is reused by a later attempt. -/
theorem connections_balanced {α : Type} (env : Env α) (sqlQuery : String) :
    opensOf (executeQueryRun env sqlQuery).events
        = closesOf (executeQueryRun env sqlQuery).events ∧
      (opensOf (executeQueryRun env sqlQuery).events).Nodup :=
  ⟨(opens_closes_aux env 3 3 1 sqlQuery "").1, (opens_closes_aux env 3 3 1 sqlQuery "").2.1⟩

/-- C3. When connecting always succeeds, execution always fails, and every
repair succeeds with a SQL that cleans to a validator-accepted query, the
run returns null data and the aggregate error built from the string 3 and
the error text of the third and last execution, after exactly 3 execution
attempts and exactly 2 repair invocations. -/
theorem always_failing_run_three_attempts {α : Type} (env : Env α)
    (E : Nat → String → String) (F : Nat → String → String → String) (sql0 : String)
    (hconn : ∀ n, env.connect n = Except.ok ())
    (hrun : ∀ n s, env.run n s = Except.error (E n s))
    (hfix : ∀ n s e, env.fix n s e = ⟨some (F n s e), none⟩)
    (hvalid : ∀ n s e, isReadOnlyQuery (cleanSqlResponse (F n s e)) = true) :
    (executeQueryRun env sql0).result.data = none ∧
      (executeQueryRun env sql0).result.error
          = some ("Query failed after 3 attempts: "
              ++ E 3 (executeQueryRun env sql0).result.sql) ∧
      numExec (executeQueryRun env sql0).events = 3 ∧
      numFix (executeQueryRun env sql0).events = 2 := by
  have hstr : "Query failed after " ++ toString (3 : Nat) ++ " attempts: "
      = "Query failed after 3 attempts: " := by decide
  have heq : executeQueryRun env sql0 =
      ⟨⟨some ("Query failed after " ++ toString (3 : Nat) ++ " attempts: "
            ++ E 3 (cleanSqlResponse (F 3 (cleanSqlResponse (F 2 sql0 (E 1 sql0)))
              (E 2 (cleanSqlResponse (F 2 sql0 (E 1 sql0))))))),
          cleanSqlResponse (F 3 (cleanSqlResponse (F 2 sql0 (E 1 sql0)))
            (E 2 (cleanSqlResponse (F 2 sql0 (E 1 sql0))))), none⟩,
        [Event.connOpen 1, Event.exec 1 sql0, Event.connClose 1,
          Event.fix 2 sql0 (E 1 sql0),
          Event.connOpen 2, Event.exec 2 (cleanSqlResponse (F 2 sql0 (E 1 sql0))),
          Event.connClose 2,
          Event.fix 3 (cleanSqlResponse (F 2 sql0 (E 1 sql0)))
            (E 2 (cleanSqlResponse (F 2 sql0 (E 1 sql0)))),
          Event.connOpen 3,
          Event.exec 3 (cleanSqlResponse (F 3 (cleanSqlResponse (F 2 sql0 (E 1 sql0)))
            (E 2 (cleanSqlResponse (F 2 sql0 (E 1 sql0)))))),
          Event.connClose 3]⟩ := by
    simp [executeQueryRun, executeQueryAux, hconn, hrun, hfix, hvalid, truthy]
  rw [heq]
  refine ⟨rfl, ?_, by simp [numExec], by simp [numFix]⟩
  rw [hstr]

/-- C3 witness: the three-attempt aggregate failure at a concrete always
failing environment. -/
theorem always_failing_run_three_attempts_witness :
    (executeQueryRun sampleEnvFailing "SELECT 1").result.data = none ∧
      (executeQueryRun sampleEnvFailing "SELECT 1").result.error
          = some ("Query failed after 3 attempts: "
              ++ "boom") ∧
      numExec (executeQueryRun sampleEnvFailing "SELECT 1").events = 3 ∧
      numFix (executeQueryRun sampleEnvFailing "SELECT 1").events = 2 := by
  have hv : isReadOnlyQuery (cleanSqlResponse "SELECT 2") = true := by decide
  exact always_failing_run_three_attempts sampleEnvFailing (fun _ _ => "boom")
    (fun _ _ _ => "SELECT 2") "SELECT 1" (fun _ => rfl) (fun _ _ => rfl)
    (fun _ _ _ => rfl) (fun _ _ _ => hv)

/-- C4. A truthy error from the repair step at attempt 2 terminates the run
at once with that error, the previous SQL and null data: the trace stops at
the repair call, so attempt 2 never executes and attempt 3 never happens. -/
theorem repair_error_is_terminal {α : Type} (env : Env α) (sql0 e1 m : String)
    (fsql : Option String)
    (hconn : env.connect 1 = Except.ok ())
    (hrun : env.run 1 sql0 = Except.error e1)
    (hfix : env.fix 2 sql0 e1 = ⟨fsql, some m⟩)
    (hm : truthy (some m) = true) :
    executeQueryRun env sql0 =
      ⟨⟨some m, sql0, none⟩,
        [Event.connOpen 1, Event.exec 1 sql0, Event.connClose 1,
          Event.fix 2 sql0 e1]⟩ := by
  simp [executeQueryRun, executeQueryAux, hconn, hrun, hfix, hm]

/-- C4 witness: the immediate termination on a concrete repair error. -/
theorem repair_error_is_terminal_witness :
    executeQueryRun sampleEnvRepairErr "SELECT 1" =
      ⟨⟨some "AI down", "SELECT 1", none⟩,
        [Event.connOpen 1, Event.exec 1 "SELECT 1", Event.connClose 1,
          Event.fix 2 "SELECT 1" "syntax error"]⟩ :=
  repair_error_is_terminal sampleEnvRepairErr "SELECT 1" "syntax error" "AI down" none
    rfl rfl rfl (by decide)

end OpenInsight
